import Mathlib

/-!
The CSS selector builder of `06-objects-tasks.js`.

A shallow embedding of the object `cssSelectorBuilder` and of its methods
`element`, `id`, `class`, `attr`, `pseudoClass`, `pseudoElement`, `combine`
and `stringify`.

A selector is the record of the five data properties of the object
(`cssSelector`, `el`, `idi`, `pe`, `array`); the methods are the same on every
selector, since each method returns a spread copy of its receiver.  A method
that throws returns `Except.error` with the thrown `Error`.

Two levels are given:

* a value level (`Selector`), where a method maps the receiver's record to the
  record of the returned object;
* a store level (`Heap`), where objects and arrays live in a store and the
  statements of each method (`{ ...this }`, `this.array.slice()`,
  `copy.array[0] = true`, ...) are store updates.  It is used to state that no
  method writes to an object or array that existed before the call.

The rectangle object and `fromJSON` of the same file come first, in the
namespace `ObjectsTasks`.
-/

namespace ObjectsTasks

/-! ## Rectangle and fromJSON -/

/-- The object built by `new Rectangle(width, height)`: its two data
properties.  The numbers stored are the integers among the JavaScript numbers. -/
structure RectangleObject where
  width : Int
  height : Int
  deriving DecidableEq, Repr

/-- Constructor `Rectangle(width, height)`. -/
def Rectangle (width height : Int) : RectangleObject :=
  { width := width, height := height }

/-- The value of a product of two integer numbers: a JavaScript number is an
IEEE-754 double, and the product of two integers is again an integer, or an
infinity when it is out of range.  The two zeros, equal under `===`, are not
told apart. -/
inductive JsNumber where
  | int (n : Int)
  | infinity
  | negInfinity
  deriving DecidableEq, Repr

/-- How many times `m` is halved before it is below `2^53`, the size of the
significand of a double; `fuel` bounds the count. -/
def excessBits : Nat → Nat → Nat
  | 0, _ => 0
  | fuel + 1, m => if m < 2 ^ 53 then 0 else excessBits fuel (m / 2) + 1

/-- Rounding of a natural number to 53 significant bits, to the nearest such
number and, halfway between two, to the one with the even significand. -/
def roundNat (m : Nat) : Nat :=
  let e := excessBits m m
  let q := m / 2 ^ e
  let r := m % 2 ^ e
  if 2 * r < 2 ^ e then q * 2 ^ e
  else if 2 * r = 2 ^ e ∧ q % 2 = 0 then q * 2 ^ e
  else (q + 1) * 2 ^ e

/-- The double nearest to the integer `n`: `n` rounded to 53 significant bits,
and an infinity when the rounded magnitude reaches `2^1024`. -/
def roundToDouble (n : Int) : JsNumber :=
  if roundNat n.natAbs < 2 ^ 1024 then .int (n.sign * roundNat n.natAbs)
  else if 0 < n then .infinity
  else .negInfinity

/-- The operator `*` on two integer numbers: the exact product, rounded to the
nearest double. -/
def jsMul (a b : Int) : JsNumber :=
  roundToDouble (a * b)

/-- The property `getArea` set by the constructor, called on its object. -/
def RectangleObject.getArea (this : RectangleObject) : JsNumber :=
  jsMul this.width this.height

/-- The object `JSON.parse` returns for the text of a JSON object whose values
are numbers: its properties in the order of the text, which is the order in
which `Object.values` lists them. -/
abbrev JsObject := List (String × Int)

/-- The call `Object.values(obj)`. -/
def objectValues (obj : JsObject) : List Int :=
  obj.map Prod.snd

/-- The call `new proto.constructor(...values)` for `Rectangle.prototype`: the
first value is bound to `width`, the second to `height`, further values are
dropped.  With fewer than two values a parameter is `undefined`, which is not
a number: `none`. -/
def newRectangle : List Int → Option RectangleObject
  | w :: h :: _ => some (Rectangle w h)
  | _ => none

/-- Function `fromJSON(proto, json)`.  The built-in `JSON.parse` is the
parameter `parse`, and `proto` is given by the call `construct` of its
constructor on a spread list of values. -/
def fromJSON {α : Type} (parse : String → JsObject) (construct : List Int → α)
    (json : String) : α :=
  let obj := parse json
  let values := objectValues obj
  construct values

end ObjectsTasks

namespace CssSelector

/-! ## Errors -/

/-- The JavaScript `Error` object, identified by its message. -/
inductive JsError where
  | Error (message : String)
  deriving DecidableEq, Repr

/-- Message of the error thrown by `element`, `id` and `pseudoElement` on a repeated call. -/
def duplicateMessage : String :=
  "Element, id and pseudo-element should not occur more then one time inside the selector"

/-- Message of the error thrown by the `indexOf(true) > c` checks. -/
def orderMessage : String :=
  "Selector parts should be arranged in the following order: element, id, class, attribute, pseudo-class, pseudo-element"

/-! ## Arrays of booleans -/

/-- Search of `Array.prototype.indexOf` from position `i` on. -/
def indexOfFrom (x : Bool) : List Bool → Nat → Int
  | [], _ => -1
  | b :: bs, i => if b = x then (i : Int) else indexOfFrom x bs (i + 1)

/-- The call `a.indexOf(x)`: the first index holding `x`, or `-1`. -/
def indexOf (a : List Bool) (x : Bool) : Int :=
  indexOfFrom x a 0

/-- The assignment `a[i] = v`.  Writing past the end grows the array; the holes
this leaves are written `false`, a hole never being found by `indexOf(true)`.
On the six-element arrays of the builder the write is always in range. -/
def setIndex : List Bool → Nat → Bool → List Bool
  | [], 0, v => [v]
  | [], i + 1, v => false :: setIndex [] i v
  | _ :: bs, 0, v => v :: bs
  | b :: bs, i + 1, v => b :: setIndex bs i v

/-! ## Value level -/

/-- The data properties of a selector object. -/
structure Selector where
  cssSelector : String
  el : Nat
  idi : Nat
  pe : Nat
  array : List Bool
  deriving DecidableEq, Repr

/-- The object literal `cssSelectorBuilder`. -/
def cssSelectorBuilder : Selector :=
  { cssSelector := "", el := 0, idi := 0, pe := 0,
    array := [false, false, false, false, false, false] }

namespace Selector

/-- Method `element(value)`. -/
def element (this : Selector) (value : String) : Except JsError Selector :=
  if this.el = 1 then .error (.Error duplicateMessage)
  else if indexOf this.array true > 0 then .error (.Error orderMessage)
  else .ok { this with
    el := 1
    array := setIndex this.array 0 true
    cssSelector := this.cssSelector ++ value }

/-- Method `id(value)`. -/
def id (this : Selector) (value : String) : Except JsError Selector :=
  if this.idi = 1 then .error (.Error duplicateMessage)
  else if indexOf this.array true > 1 then .error (.Error orderMessage)
  else .ok { this with
    idi := 1
    array := setIndex this.array 1 true
    cssSelector := this.cssSelector ++ ("#" ++ value) }

/-- Method `class(value)`. -/
def class_ (this : Selector) (value : String) : Except JsError Selector :=
  if indexOf this.array true > 2 then .error (.Error orderMessage)
  else .ok { this with
    array := setIndex this.array 2 true
    cssSelector := this.cssSelector ++ ("." ++ value) }

/-- Method `attr(value)`. -/
def attr (this : Selector) (value : String) : Except JsError Selector :=
  if indexOf this.array true > 3 then .error (.Error orderMessage)
  else .ok { this with
    array := setIndex this.array 3 true
    cssSelector := this.cssSelector ++ ("[" ++ value ++ "]") }

/-- Method `pseudoClass(value)`. -/
def pseudoClass (this : Selector) (value : String) : Except JsError Selector :=
  if indexOf this.array true > 4 then .error (.Error orderMessage)
  else .ok { this with
    array := setIndex this.array 4 true
    cssSelector := this.cssSelector ++ (":" ++ value) }

/-- Method `pseudoElement(value)`. -/
def pseudoElement (this : Selector) (value : String) : Except JsError Selector :=
  if this.pe = 1 then .error (.Error duplicateMessage)
  else .ok { this with
    pe := 1
    array := setIndex this.array 5 true
    cssSelector := this.cssSelector ++ ("::" ++ value) }

/-- Method `combine(selector1, combinator, selector2)`. -/
def combine (this selector1 : Selector) (combinator : String) (selector2 : Selector) :
    Selector :=
  { this with
    cssSelector := selector1.cssSelector ++ " " ++ combinator ++ " " ++ selector2.cssSelector
    array := this.array }

/-- Method `stringify()`. -/
def stringify (this : Selector) : String :=
  this.cssSelector

end Selector

/-! ## Chains of fragment calls -/

/-- The six fragment methods. -/
inductive Op where
  | element | id | class_ | attr | pseudoClass | pseudoElement
  deriving DecidableEq, Repr

/-- Position of a fragment method in the order element, id, class, attribute,
pseudo-class, pseudo-element. -/
def Op.index : Op → Nat
  | .element => 0
  | .id => 1
  | .class_ => 2
  | .attr => 3
  | .pseudoClass => 4
  | .pseudoElement => 5

/-- The text a fragment method appends for the value `v`. -/
def Op.fragment : Op → String → String
  | .element, v => v
  | .id, v => "#" ++ v
  | .class_, v => "." ++ v
  | .attr, v => "[" ++ v ++ "]"
  | .pseudoClass, v => ":" ++ v
  | .pseudoElement, v => "::" ++ v

/-- One fragment call `S.op(v)`. -/
def call (S : Selector) (op : Op) (v : String) : Except JsError Selector :=
  match op with
  | .element => S.element v
  | .id => S.id v
  | .class_ => S.class_ v
  | .attr => S.attr v
  | .pseudoClass => S.pseudoClass v
  | .pseudoElement => S.pseudoElement v

/-- A chain `S.op₁(v₁).op₂(v₂)...`: the calls are made in turn, and the first
one that throws ends the chain with its error. -/
def chain (S : Selector) : List (Op × String) → Except JsError Selector
  | [] => .ok S
  | (op, v) :: rest =>
    match call S op v with
    | .error e => .error e
    | .ok S1 => chain S1 rest

/-- Concatenation, in call order, of the fragments of a list of calls. -/
def fragments : List (Op × String) → String
  | [] => ""
  | (op, v) :: rest => op.fragment v ++ fragments rest

/-- Selectors that a program can hold: the base object, the result of a
fragment call that did not throw, and the result of `combine` called on a
selector it holds with two selectors it holds. -/
inductive Reachable : Selector → Prop where
  | base : Reachable cssSelectorBuilder
  | call {S S1 : Selector} (op : Op) (v : String) :
      Reachable S → call S op v = .ok S1 → Reachable S1
  | combine {R A B : Selector} (c : String) :
      Reachable R → Reachable A → Reachable B → Reachable (R.combine A c B)

/-- All six category flags are false and the three counters are 0. -/
def Selector.Fresh (S : Selector) : Prop :=
  S.el = 0 ∧ S.idi = 0 ∧ S.pe = 0 ∧ S.array = [false, false, false, false, false, false]

/-! ## Store level -/

/-- A selector object in the store; its `array` property is a reference to an
array of the store. -/
structure Obj where
  cssSelector : String
  el : Nat
  idi : Nat
  pe : Nat
  array : Nat
  deriving DecidableEq, Repr

/-- The store: the objects and the arrays allocated so far.  A reference is a
position in the corresponding list. -/
structure Heap where
  objs : List Obj
  arrays : List (List Bool)
  deriving DecidableEq, Repr

namespace Heap

/-- The object a reference points to. -/
def obj (h : Heap) (r : Nat) : Obj :=
  h.objs.getD r ⟨"", 0, 0, 0, 0⟩

/-- The array a reference points to. -/
def arr (h : Heap) (a : Nat) : List Bool :=
  h.arrays.getD a []

/-- Expression `{ ...this }`: a new object with the properties of `this`; the
`array` property of the copy is the same reference. -/
def spread (h : Heap) (this : Nat) : Heap × Nat :=
  ({ h with objs := h.objs ++ [h.obj this] }, h.objs.length)

/-- Expression `a.slice()`: a new array with the elements of `a`. -/
def slice (h : Heap) (a : Nat) : Heap × Nat :=
  ({ h with arrays := h.arrays ++ [h.arr a] }, h.arrays.length)

/-- Assignment to a property of the object `r`. -/
def update (h : Heap) (r : Nat) (f : Obj → Obj) : Heap :=
  { h with objs := h.objs.set r (f (h.obj r)) }

/-- Assignment `a[i] = v` on the array `a` of the store. -/
def assignIndex (h : Heap) (a i : Nat) (v : Bool) : Heap :=
  { h with arrays := h.arrays.set a (setIndex (h.arr a) i v) }

/-- Method `element(value)`, statement by statement. -/
def element (h : Heap) (this : Nat) (value : String) : Heap × Except JsError Nat :=
  if (h.obj this).el = 1 then (h, .error (.Error duplicateMessage))
  else if indexOf (h.arr (h.obj this).array) true > 0 then (h, .error (.Error orderMessage))
  else
    let copy := (h.spread this).2
    let h1 := (h.spread this).1
    let h2 := h1.update copy fun o => { o with el := 1 }
    let a := (h2.slice (h2.obj this).array).2
    let h3 := (h2.slice (h2.obj this).array).1
    let h4 := h3.update copy fun o => { o with array := a }
    let h5 := h4.assignIndex (h4.obj copy).array 0 true
    let h6 := h5.update copy fun o => { o with cssSelector := o.cssSelector ++ value }
    (h6, .ok copy)

/-- Method `id(value)`, statement by statement. -/
def id (h : Heap) (this : Nat) (value : String) : Heap × Except JsError Nat :=
  if (h.obj this).idi = 1 then (h, .error (.Error duplicateMessage))
  else if indexOf (h.arr (h.obj this).array) true > 1 then (h, .error (.Error orderMessage))
  else
    let copy := (h.spread this).2
    let h1 := (h.spread this).1
    let h2 := h1.update copy fun o => { o with idi := 1 }
    let a := (h2.slice (h2.obj this).array).2
    let h3 := (h2.slice (h2.obj this).array).1
    let h4 := h3.update copy fun o => { o with array := a }
    let h5 := h4.assignIndex (h4.obj copy).array 1 true
    let h6 := h5.update copy fun o => { o with cssSelector := o.cssSelector ++ ("#" ++ value) }
    (h6, .ok copy)

/-- Method `class(value)`, statement by statement. -/
def class_ (h : Heap) (this : Nat) (value : String) : Heap × Except JsError Nat :=
  if indexOf (h.arr (h.obj this).array) true > 2 then (h, .error (.Error orderMessage))
  else
    let copy := (h.spread this).2
    let h1 := (h.spread this).1
    let a := (h1.slice (h1.obj this).array).2
    let h2 := (h1.slice (h1.obj this).array).1
    let h3 := h2.update copy fun o => { o with array := a }
    let h4 := h3.assignIndex (h3.obj copy).array 2 true
    let h5 := h4.update copy fun o => { o with cssSelector := o.cssSelector ++ ("." ++ value) }
    (h5, .ok copy)

/-- Method `attr(value)`, statement by statement. -/
def attr (h : Heap) (this : Nat) (value : String) : Heap × Except JsError Nat :=
  if indexOf (h.arr (h.obj this).array) true > 3 then (h, .error (.Error orderMessage))
  else
    let copy := (h.spread this).2
    let h1 := (h.spread this).1
    let a := (h1.slice (h1.obj this).array).2
    let h2 := (h1.slice (h1.obj this).array).1
    let h3 := h2.update copy fun o => { o with array := a }
    let h4 := h3.assignIndex (h3.obj copy).array 3 true
    let h5 := h4.update copy fun o =>
      { o with cssSelector := o.cssSelector ++ ("[" ++ value ++ "]") }
    (h5, .ok copy)

/-- Method `pseudoClass(value)`, statement by statement. -/
def pseudoClass (h : Heap) (this : Nat) (value : String) : Heap × Except JsError Nat :=
  if indexOf (h.arr (h.obj this).array) true > 4 then (h, .error (.Error orderMessage))
  else
    let copy := (h.spread this).2
    let h1 := (h.spread this).1
    let a := (h1.slice (h1.obj this).array).2
    let h2 := (h1.slice (h1.obj this).array).1
    let h3 := h2.update copy fun o => { o with array := a }
    let h4 := h3.assignIndex (h3.obj copy).array 4 true
    let h5 := h4.update copy fun o => { o with cssSelector := o.cssSelector ++ (":" ++ value) }
    (h5, .ok copy)

/-- Method `pseudoElement(value)`, statement by statement. -/
def pseudoElement (h : Heap) (this : Nat) (value : String) : Heap × Except JsError Nat :=
  if (h.obj this).pe = 1 then (h, .error (.Error duplicateMessage))
  else
    let copy := (h.spread this).2
    let h1 := (h.spread this).1
    let h2 := h1.update copy fun o => { o with pe := 1 }
    let a := (h2.slice (h2.obj this).array).2
    let h3 := (h2.slice (h2.obj this).array).1
    let h4 := h3.update copy fun o => { o with array := a }
    let h5 := h4.assignIndex (h4.obj copy).array 5 true
    let h6 := h5.update copy fun o => { o with cssSelector := o.cssSelector ++ ("::" ++ value) }
    (h6, .ok copy)

/-- Method `combine(selector1, combinator, selector2)`, statement by statement. -/
def combine (h : Heap) (this selector1 : Nat) (combinator : String) (selector2 : Nat) :
    Heap × Nat :=
  let copy := (h.spread this).2
  let h1 := (h.spread this).1
  let h2 := h1.update copy fun o =>
    { o with cssSelector :=
        (h1.obj selector1).cssSelector ++ " " ++ combinator ++ " " ++
          (h1.obj selector2).cssSelector }
  let a := (h2.slice (h2.obj this).array).2
  let h3 := (h2.slice (h2.obj this).array).1
  let h4 := h3.update copy fun o => { o with array := a }
  (h4, copy)

/-- Method `stringify()`. -/
def stringify (h : Heap) (this : Nat) : String :=
  (h.obj this).cssSelector

/-- One fragment call `this.op(v)` in the store `h`. -/
def call (h : Heap) (this : Nat) (op : Op) (v : String) : Heap × Except JsError Nat :=
  match op with
  | .element => h.element this v
  | .id => h.id this v
  | .class_ => h.class_ this v
  | .attr => h.attr this v
  | .pseudoClass => h.pseudoClass this v
  | .pseudoElement => h.pseudoElement this v

/-- The reference `r` points to an object of the store whose `array` property
points to an array of the store. -/
def Valid (h : Heap) (r : Nat) : Prop :=
  r < h.objs.length ∧ (h.obj r).array < h.arrays.length

/-- What can be observed of the object `r`: its text, its three counters and
the contents of its `array`. -/
def view (h : Heap) (r : Nat) : Selector :=
  { cssSelector := (h.obj r).cssSelector
    el := (h.obj r).el
    idi := (h.obj r).idi
    pe := (h.obj r).pe
    array := h.arr (h.obj r).array }

/-- Allocation of the selector returned by a value-level method: a new object
holding its text and counters, and a new array holding its flags.  A thrown
error leaves the store as it is. -/
def store (h : Heap) (r : Except JsError Selector) : Heap × Except JsError Nat :=
  match r with
  | .error e => (h, .error e)
  | .ok S =>
    ({ objs := h.objs ++ [⟨S.cssSelector, S.el, S.idi, S.pe, h.arrays.length⟩]
       arrays := h.arrays ++ [S.array] }, .ok h.objs.length)

/-- The store in which only `cssSelectorBuilder` has been created; it is the
object at reference 0. -/
def initial : Heap :=
  { objs := [⟨"", 0, 0, 0, 0⟩], arrays := [[false, false, false, false, false, false]] }

end Heap

/-! ## Properties -/

/-! ### Arrays -/

theorem indexOfFrom_setIndex_le (c : Nat) :
    ∀ (a : List Bool) (i : Nat), indexOfFrom true (setIndex a c true) i ≤ (i : Int) + c := by
  induction c with
  | zero =>
    intro a i
    cases a <;> simp [setIndex, indexOfFrom]
  | succ k ih =>
    intro a i
    cases a with
    | nil =>
      have := ih [] (i + 1)
      simp only [setIndex, indexOfFrom]
      simp only [Bool.false_eq_true, if_false]
      push_cast at this ⊢
      omega
    | cons b bs =>
      have := ih bs (i + 1)
      simp only [setIndex, indexOfFrom]
      split
      · push_cast; omega
      · push_cast at this ⊢; omega

theorem indexOf_setIndex_le (a : List Bool) (c : Nat) :
    indexOf (setIndex a c true) true ≤ (c : Int) := by
  have := indexOfFrom_setIndex_le c a 0
  simpa [indexOf] using this

/-! ### One fragment call -/

/-- What a fragment call that does not throw returns. -/
theorem call_ok_spec {S S1 : Selector} {op : Op} {v : String} (h : call S op v = .ok S1) :
    S1.cssSelector = S.cssSelector ++ op.fragment v ∧
    S1.array = setIndex S.array op.index true ∧
    S1.el = (if op = .element then 1 else S.el) ∧
    S1.idi = (if op = .id then 1 else S.idi) ∧
    S1.pe = (if op = .pseudoElement then 1 else S.pe) := by
  cases op <;>
    simp only [call, Selector.element, Selector.id, Selector.class_, Selector.attr,
      Selector.pseudoClass, Selector.pseudoElement] at h <;>
    split_ifs at h <;> cases h <;> simp [Op.fragment, Op.index]

/-- A fragment call does not throw when the lowest set flag is not above its
category and its counter, if it has one, is not 1. -/
theorem call_ok_of {S : Selector} {op : Op} (v : String)
    (hidx : indexOf S.array true ≤ (op.index : Int))
    (hel : op = .element → S.el ≠ 1) (hid : op = .id → S.idi ≠ 1)
    (hpe : op = .pseudoElement → S.pe ≠ 1) :
    ∃ S1, call S op v = .ok S1 := by
  cases op <;>
    simp only [call, Selector.element, Selector.id, Selector.class_, Selector.attr,
      Selector.pseudoClass, Selector.pseudoElement, Op.index] at hidx ⊢
  · rw [if_neg (hel rfl), if_neg (by push_cast at hidx; omega)]; exact ⟨_, rfl⟩
  · rw [if_neg (hid rfl), if_neg (by push_cast at hidx; omega)]; exact ⟨_, rfl⟩
  · rw [if_neg (by push_cast at hidx; omega)]; exact ⟨_, rfl⟩
  · rw [if_neg (by push_cast at hidx; omega)]; exact ⟨_, rfl⟩
  · rw [if_neg (by push_cast at hidx; omega)]; exact ⟨_, rfl⟩
  · rw [if_neg (hpe rfl)]; exact ⟨_, rfl⟩

/-! ### Chains -/

theorem chain_cons_ok {S S1 : Selector} {op : Op} {v : String} (rest : List (Op × String))
    (h : call S op v = .ok S1) : chain S ((op, v) :: rest) = chain S1 rest := by
  simp [chain, h]

/-- A chain that does not throw passes through a selector after its first call. -/
theorem chain_cons_inv {S S2 : Selector} {op : Op} {v : String} {rest : List (Op × String)}
    (h : chain S ((op, v) :: rest) = .ok S2) :
    ∃ S1, call S op v = .ok S1 ∧ chain S1 rest = .ok S2 := by
  simp only [chain] at h
  split at h
  · cases h
  · next S1 hS1 => exact ⟨S1, hS1, h⟩

/-- A chain that does not throw: every call in it is made and does not throw. -/
theorem chain_append_inv : ∀ (pre : List (Op × String)) {post : List (Op × String)}
    {S S2 : Selector}, chain S (pre ++ post) = .ok S2 →
    ∃ S1, chain S pre = .ok S1 ∧ chain S1 post = .ok S2 := by
  intro pre
  induction pre with
  | nil => intro post S S2 h; exact ⟨S, rfl, h⟩
  | cons p pre ih =>
    intro post S S2 h
    obtain ⟨op, v⟩ := p
    obtain ⟨S1, h1, h2⟩ := chain_cons_inv (by simpa using h)
    obtain ⟨S3, h3, h4⟩ := ih h2
    exact ⟨S3, by rw [chain_cons_ok pre h1]; exact h3, h4⟩

theorem chain_ok_of_sorted : ∀ (calls : List (Op × String)) (S : Selector),
    calls.Pairwise (fun p q => p.1.index ≤ q.1.index) →
    (∀ p ∈ calls, indexOf S.array true ≤ (p.1.index : Int)) →
    S.el + (calls.map Prod.fst).count .element ≤ 1 →
    S.idi + (calls.map Prod.fst).count .id ≤ 1 →
    S.pe + (calls.map Prod.fst).count .pseudoElement ≤ 1 →
    ∃ S1, chain S calls = .ok S1 := by
  intro calls
  induction calls with
  | nil => intro S _ _ _ _ _; exact ⟨S, rfl⟩
  | cons p rest ih =>
    intro S hs hidx hel hid hpe
    obtain ⟨op, v⟩ := p
    rw [List.pairwise_cons] at hs
    simp only [List.map_cons, List.count_cons] at hel hid hpe
    have hcall : ∃ S1, call S op v = .ok S1 := by
      apply call_ok_of v (hidx (op, v) (List.mem_cons_self _ _))
      · rintro rfl; simp at hel; omega
      · rintro rfl; simp at hid; omega
      · rintro rfl; simp at hpe; omega
    obtain ⟨S1, h1⟩ := hcall
    obtain ⟨-, harr, hel1, hid1, hpe1⟩ := call_ok_spec h1
    rw [chain_cons_ok rest h1]
    apply ih S1 hs.2
    · intro q hq
      have h2 := hs.1 q hq
      have h3 := indexOf_setIndex_le S.array op.index
      rw [harr]
      simp only at h2
      omega
    · rw [hel1]; cases op <;> simp at hel ⊢ <;> omega
    · rw [hid1]; cases op <;> simp at hid ⊢ <;> omega
    · rw [hpe1]; cases op <;> simp at hpe ⊢ <;> omega

theorem chain_text : ∀ (calls : List (Op × String)) (S S1 : Selector),
    chain S calls = .ok S1 → S1.cssSelector = S.cssSelector ++ fragments calls := by
  intro calls
  induction calls with
  | nil =>
    intro S S1 h
    simp only [chain] at h
    cases h
    simp [fragments]
  | cons p rest ih =>
    intro S S1 h
    obtain ⟨op, v⟩ := p
    obtain ⟨S2, h1, h2⟩ := chain_cons_inv h
    rw [ih S2 S1 h2, (call_ok_spec h1).1, fragments, String.append_assoc]

/-! ### Claims -/

/-- C1: a chain of fragment calls from the empty `cssSelectorBuilder` whose
categories are non-decreasing in the order element, id, class, attr,
pseudoClass, pseudoElement, with element, id and pseudoElement each called at
most once, does not throw: the chain returns a selector, every call of the
chain is made on a selector and returns one, and `stringify()` of the result is
its text. -/
theorem C1_ordered_chain_never_raises (calls : List (Op × String))
    (hsorted : (calls.map fun p => p.1.index).Sorted (· ≤ ·))
    (hel : (calls.map Prod.fst).count .element ≤ 1)
    (hid : (calls.map Prod.fst).count .id ≤ 1)
    (hpe : (calls.map Prod.fst).count .pseudoElement ≤ 1) :
    ∃ S, chain cssSelectorBuilder calls = .ok S ∧
      S.stringify = fragments calls ∧
      ∀ pre op v post, calls = pre ++ (op, v) :: post →
        ∃ S1 S2, chain cssSelectorBuilder pre = .ok S1 ∧ call S1 op v = .ok S2 := by
  have hs : calls.Pairwise (fun p q => p.1.index ≤ q.1.index) := by
    have := hsorted
    simpa [List.Sorted, List.pairwise_map] using this
  obtain ⟨S, hS⟩ := chain_ok_of_sorted calls cssSelectorBuilder hs
    (by intro p _; have : indexOf cssSelectorBuilder.array true = -1 := by rfl
        rw [this]; omega)
    (by simpa [cssSelectorBuilder] using hel)
    (by simpa [cssSelectorBuilder] using hid)
    (by simpa [cssSelectorBuilder] using hpe)
  refine ⟨S, hS, ?_, ?_⟩
  · rw [Selector.stringify, chain_text calls _ _ hS]
    simp [cssSelectorBuilder]
  · intro pre op v post hcalls
    subst hcalls
    obtain ⟨S1, h1, h2⟩ := chain_append_inv pre hS
    obtain ⟨S2, h3, -⟩ := chain_cons_inv h2
    exact ⟨S1, S2, h1, h3⟩

/-- C1 at the chain element, id, class, class, attr, pseudoClass, pseudoElement. -/
theorem C1_ordered_chain_never_raises_witness :
    ∃ S, chain cssSelectorBuilder
        [(.element, "div"), (.id, "main"), (.class_, "a"), (.class_, "b"), (.attr, "x"),
          (.pseudoClass, "hover"), (.pseudoElement, "after")] = .ok S ∧
      S.stringify = fragments
        [(.element, "div"), (.id, "main"), (.class_, "a"), (.class_, "b"), (.attr, "x"),
          (.pseudoClass, "hover"), (.pseudoElement, "after")] ∧
      ∀ pre op v post,
        [(Op.element, "div"), (.id, "main"), (.class_, "a"), (.class_, "b"), (.attr, "x"),
          (.pseudoClass, "hover"), (.pseudoElement, "after")] = pre ++ (op, v) :: post →
        ∃ S1 S2, chain cssSelectorBuilder pre = .ok S1 ∧ call S1 op v = .ok S2 :=
  C1_ordered_chain_never_raises _ (by simp [Op.index]) (by decide) (by decide) (by decide)

/-- C2: when every call of a chain from the empty `cssSelectorBuilder` succeeds,
`stringify()` of the result is the concatenation, in call order, of the
formatted fragments: `v` for element, `#v` for id, `.v` for class, `[v]` for
attr, `:v` for pseudoClass and `::v` for pseudoElement. -/
theorem C2_stringify_concatenates_fragments (calls : List (Op × String)) (S : Selector)
    (h : chain cssSelectorBuilder calls = .ok S) :
    S.stringify = fragments calls ∧
    (∀ v, Op.element.fragment v = v) ∧ (∀ v, Op.id.fragment v = "#" ++ v) ∧
    (∀ v, Op.class_.fragment v = "." ++ v) ∧ (∀ v, Op.attr.fragment v = "[" ++ v ++ "]") ∧
    (∀ v, Op.pseudoClass.fragment v = ":" ++ v) ∧
    (∀ v, Op.pseudoElement.fragment v = "::" ++ v) := by
  refine ⟨?_, fun _ => rfl, fun _ => rfl, fun _ => rfl, fun _ => rfl, fun _ => rfl,
    fun _ => rfl⟩
  rw [Selector.stringify, chain_text calls _ _ h]
  simp [cssSelectorBuilder]

/-- C2 at the two chains of the docstring. -/
theorem C2_stringify_concatenates_fragments_witness :
    (∃ S, chain cssSelectorBuilder
        [(.element, "a"), (.attr, "href$=\".png\""), (.pseudoClass, "focus")] = .ok S ∧
      S.stringify = "a[href$=\".png\"]:focus") ∧
    (∃ S, chain cssSelectorBuilder
        [(.id, "main"), (.class_, "container"), (.class_, "editable")] = .ok S ∧
      S.stringify = "#main.container.editable") :=
  ⟨⟨⟨"a[href$=\".png\"]:focus", 1, 0, 0, [true, false, false, true, true, false]⟩, rfl,
      (C2_stringify_concatenates_fragments
        [(.element, "a"), (.attr, "href$=\".png\""), (.pseudoClass, "focus")] _ rfl).1.trans
        rfl⟩,
    ⟨⟨"#main.container.editable", 0, 1, 0, [false, true, true, false, false, false]⟩, rfl,
      (C2_stringify_concatenates_fragments
        [(.id, "main"), (.class_, "container"), (.class_, "editable")] _ rfl).1.trans rfl⟩⟩

/-- C3, at the failing input `element("a").class("b").id("x")`: the selector
returned by `element("a").class("b")` has the class flag (index 2) set and `id`
has not been called on it, yet `id("x")` does not throw the ordering error: it
returns a selector, whose text is `a.b#x`. -/
theorem C3_id_after_class_accepted :
    ∃ S, chain cssSelectorBuilder [(.element, "a"), (.class_, "b")] = .ok S ∧
      S.array = [true, false, true, false, false, false] ∧ S.idi = 0 ∧
      Op.id.index < 2 ∧
      S.id "x" = .ok ⟨"a.b#x", 1, 1, 0, [true, true, true, false, false, false]⟩ ∧
      S.id "x" ≠ .error (.Error orderMessage) := by
  refine ⟨⟨"a.b", 1, 0, 0, [true, false, true, false, false, false]⟩, rfl, rfl, rfl,
    by decide, rfl, ?_⟩
  intro h
  have h2 : Selector.id ⟨"a.b", 1, 0, 0, [true, false, true, false, false, false]⟩ "x" =
      .ok ⟨"a.b#x", 1, 1, 0, [true, true, true, false, false, false]⟩ := rfl
  rw [h2] at h
  cases h

theorem chain_counters : ∀ (calls : List (Op × String)) (S S1 : Selector),
    chain S calls = .ok S1 →
    ((S.el = 1 ∨ Op.element ∈ calls.map Prod.fst) → S1.el = 1) ∧
    ((S.idi = 1 ∨ Op.id ∈ calls.map Prod.fst) → S1.idi = 1) ∧
    ((S.pe = 1 ∨ Op.pseudoElement ∈ calls.map Prod.fst) → S1.pe = 1) := by
  intro calls
  induction calls with
  | nil =>
    intro S S1 h
    simp only [chain] at h
    cases h
    simp
  | cons p rest ih =>
    intro S S1 h
    obtain ⟨op, v⟩ := p
    obtain ⟨S2, h1, h2⟩ := chain_cons_inv h
    obtain ⟨-, -, hel, hid, hpe⟩ := call_ok_spec h1
    obtain ⟨i1, i2, i3⟩ := ih S2 S1 h2
    refine ⟨fun hh => i1 ?_, fun hh => i2 ?_, fun hh => i3 ?_⟩
    · rw [hel]
      cases op <;> simp at hh ⊢ <;> exact hh
    · rw [hid]
      cases op <;> simp at hh ⊢ <;> exact hh
    · rw [hpe]
      cases op <;> simp at hh ⊢ <;> exact hh

/-- C4: in a chain of successful fragment calls from the empty
`cssSelectorBuilder` in which `element` (respectively `id`, `pseudoElement`) has
been called, at any place, a further call of the same method throws the
duplicate error, which is not the ordering error. -/
theorem C4_repeated_call_raises_duplicate (calls : List (Op × String)) (S : Selector)
    (h : chain cssSelectorBuilder calls = .ok S) (w : String) :
    (Op.element ∈ calls.map Prod.fst → S.element w = .error (.Error duplicateMessage)) ∧
    (Op.id ∈ calls.map Prod.fst → S.id w = .error (.Error duplicateMessage)) ∧
    (Op.pseudoElement ∈ calls.map Prod.fst →
      S.pseudoElement w = .error (.Error duplicateMessage)) ∧
    JsError.Error duplicateMessage ≠ JsError.Error orderMessage := by
  obtain ⟨i1, i2, i3⟩ := chain_counters calls _ _ h
  refine ⟨fun hh => ?_, fun hh => ?_, fun hh => ?_, by decide⟩
  · simp [Selector.element, i1 (Or.inr hh)]
  · simp [Selector.id, i2 (Or.inr hh)]
  · simp [Selector.pseudoElement, i3 (Or.inr hh)]

/-- C4 at `element("div").element("span")`, and at a repeated `id` and a
repeated `pseudoElement` with other fragments in between. -/
theorem C4_repeated_call_raises_duplicate_witness :
    (∃ S, chain cssSelectorBuilder [(.element, "div")] = .ok S ∧
      S.element "span" = .error (.Error duplicateMessage)) ∧
    (∃ S, chain cssSelectorBuilder [(.id, "a"), (.class_, "b"), (.attr, "c")] = .ok S ∧
      S.id "d" = .error (.Error duplicateMessage)) ∧
    (∃ S, chain cssSelectorBuilder
        [(.class_, "b"), (.pseudoElement, "a"), (.class_, "c")] = .ok S ∧
      S.pseudoElement "d" = .error (.Error duplicateMessage)) :=
  ⟨⟨⟨"div", 1, 0, 0, [true, false, false, false, false, false]⟩, rfl,
      (C4_repeated_call_raises_duplicate [(.element, "div")] _ rfl "span").1 (by decide)⟩,
    ⟨⟨"#a.b[c]", 0, 1, 0, [false, true, true, true, false, false]⟩, rfl,
      (C4_repeated_call_raises_duplicate
      [(.id, "a"), (.class_, "b"), (.attr, "c")] _ rfl "d").2.1 (by decide)⟩,
    ⟨⟨".b::a.c", 0, 0, 1, [false, false, true, false, false, true]⟩, rfl,
      (C4_repeated_call_raises_duplicate
        [(.class_, "b"), (.pseudoElement, "a"), (.class_, "c")] _ rfl "d").2.2.1 (by decide)⟩⟩

/-- C5: for every receiver, `combine(A, c, B).stringify()` is `A.stringify()`,
one space, `c`, one space, `B.stringify()`, whatever the combinator (three
spaces in a row for the combinator `" "`); nested calls compose; and the nested
example of the docstring gives the string written there. -/
theorem C5_combine_stringify :
    (∀ (R A B : Selector) (c : String),
      (R.combine A c B).stringify = A.stringify ++ " " ++ c ++ " " ++ B.stringify) ∧
    (∀ R A B : Selector,
      (R.combine A " " B).stringify = A.stringify ++ "   " ++ B.stringify) ∧
    (∀ (R1 R2 A B C : Selector) (c1 c2 : String),
      (R1.combine A c1 (R2.combine B c2 C)).stringify =
        A.stringify ++ " " ++ c1 ++ " " ++ B.stringify ++ " " ++ c2 ++ " " ++ C.stringify) ∧
    (∃ d t tr td,
      chain cssSelectorBuilder
        [(.element, "div"), (.id, "main"), (.class_, "container"), (.class_, "draggable")] =
        .ok d ∧
      chain cssSelectorBuilder [(.element, "table"), (.id, "data")] = .ok t ∧
      chain cssSelectorBuilder [(.element, "tr"), (.pseudoClass, "nth-of-type(even)")] =
        .ok tr ∧
      chain cssSelectorBuilder [(.element, "td"), (.pseudoClass, "nth-of-type(even)")] =
        .ok td ∧
      (cssSelectorBuilder.combine d "+"
        (cssSelectorBuilder.combine t "~" (cssSelectorBuilder.combine tr " " td))).stringify =
        "div#main.container.draggable + table#data ~ tr:nth-of-type(even)   td:nth-of-type(even)") ∧
    (∃ a b,
      chain cssSelectorBuilder [(.element, "div"), (.id, "main")] = .ok a ∧
      chain cssSelectorBuilder [(.element, "span"), (.class_, "x")] = .ok b ∧
      (cssSelectorBuilder.combine a "~" b).stringify = "div#main ~ span.x") := by
  refine ⟨fun _ _ _ _ => rfl, ?_, ?_, ?_, ?_⟩
  · intro R A B
    simp only [Selector.combine, Selector.stringify, String.append_assoc]
    rfl
  · intro R1 R2 A B C c1 c2
    simp only [Selector.combine, Selector.stringify, String.append_assoc]
  · exact ⟨⟨"div#main.container.draggable", 1, 1, 0, [true, true, true, false, false, false]⟩,
      ⟨"table#data", 1, 1, 0, [true, true, false, false, false, false]⟩,
      ⟨"tr:nth-of-type(even)", 1, 0, 0, [true, false, false, false, true, false]⟩,
      ⟨"td:nth-of-type(even)", 1, 0, 0, [true, false, false, false, true, false]⟩,
      rfl, rfl, rfl, rfl, rfl⟩
  · exact ⟨⟨"div#main", 1, 1, 0, [true, true, false, false, false, false]⟩,
      ⟨"span.x", 1, 0, 0, [true, false, true, false, false, false]⟩, rfl, rfl, rfl⟩

/-- C7 fails when the receiver is not fresh: `combine` called on the selector
returned by `element("div")` returns a selector whose element counter is 1 and
whose element flag is set. -/
theorem C7_combine_on_element_not_fresh :
    cssSelectorBuilder.element "div" =
      .ok ⟨"div", 1, 0, 0, [true, false, false, false, false, false]⟩ ∧
    (Selector.combine ⟨"div", 1, 0, 0, [true, false, false, false, false, false]⟩
      cssSelectorBuilder "+" cssSelectorBuilder).el = 1 ∧
    (Selector.combine ⟨"div", 1, 0, 0, [true, false, false, false, false, false]⟩
      cssSelectorBuilder "+" cssSelectorBuilder).array =
      [true, false, false, false, false, false] ∧
    ¬ (Selector.combine ⟨"div", 1, 0, 0, [true, false, false, false, false, false]⟩
      cssSelectorBuilder "+" cssSelectorBuilder).Fresh := by
  refine ⟨rfl, rfl, rfl, ?_⟩
  intro h
  have := h.1
  simp [Selector.combine] at this

/-- C7, amended: for every receiver `R`, all operands and every combinator,
the selector returned by `R.combine(A, c, B)` has the three counters and the
six flags of `R`; so it is fresh (six flags false, three counters 0) when `R`
is, and in particular when `R` is the base `cssSelectorBuilder`. -/
theorem C7_combine_fresh_of_fresh_receiver (R A B : Selector) (c : String) :
    ((R.combine A c B).el = R.el ∧ (R.combine A c B).idi = R.idi ∧
      (R.combine A c B).pe = R.pe ∧ (R.combine A c B).array = R.array) ∧
    (R.Fresh → (R.combine A c B).Fresh) ∧
    cssSelectorBuilder.Fresh ∧ (cssSelectorBuilder.combine A c B).Fresh := by
  refine ⟨⟨rfl, rfl, rfl, rfl⟩, fun hR => ?_, ⟨rfl, rfl, rfl, rfl⟩, ⟨rfl, rfl, rfl, rfl⟩⟩
  simpa [Selector.Fresh, Selector.combine] using hR

/-- C7, amended, at a receiver that is not fresh, the selector returned by
`id("a").pseudoElement("b")`, whose counters and flags the result has, and at
the base receiver, where the result is fresh. -/
theorem C7_combine_fresh_of_fresh_receiver_witness :
    ((Selector.combine ⟨"#a::b", 0, 1, 1, [false, true, false, false, false, true]⟩
        ⟨"div", 1, 0, 0, [true, false, false, false, false, false]⟩ ">"
        cssSelectorBuilder).el = 0 ∧
      (Selector.combine ⟨"#a::b", 0, 1, 1, [false, true, false, false, false, true]⟩
        ⟨"div", 1, 0, 0, [true, false, false, false, false, false]⟩ ">"
        cssSelectorBuilder).idi = 1 ∧
      (Selector.combine ⟨"#a::b", 0, 1, 1, [false, true, false, false, false, true]⟩
        ⟨"div", 1, 0, 0, [true, false, false, false, false, false]⟩ ">"
        cssSelectorBuilder).pe = 1 ∧
      (Selector.combine ⟨"#a::b", 0, 1, 1, [false, true, false, false, false, true]⟩
        ⟨"div", 1, 0, 0, [true, false, false, false, false, false]⟩ ">"
        cssSelectorBuilder).array = [false, true, false, false, false, true]) ∧
    (cssSelectorBuilder.combine ⟨"div", 1, 0, 0, [true, false, false, false, false, false]⟩
      ">" ⟨"#a::b", 0, 1, 1, [false, true, false, false, false, true]⟩).Fresh :=
  ⟨(C7_combine_fresh_of_fresh_receiver
      ⟨"#a::b", 0, 1, 1, [false, true, false, false, false, true]⟩
      ⟨"div", 1, 0, 0, [true, false, false, false, false, false]⟩ cssSelectorBuilder ">").1,
    (C7_combine_fresh_of_fresh_receiver cssSelectorBuilder
      ⟨"div", 1, 0, 0, [true, false, false, false, false, false]⟩
      ⟨"#a::b", 0, 1, 1, [false, true, false, false, false, true]⟩ ">").2.1
      ⟨rfl, rfl, rfl, rfl⟩⟩

/-- C8: in every selector reachable from the empty `cssSelectorBuilder` by
successful fragment calls and `combine` calls, each of the counters `el`, `idi`
and `pe` is 0 or 1. -/
theorem C8_counters_zero_or_one (S : Selector) (h : Reachable S) :
    (S.el = 0 ∨ S.el = 1) ∧ (S.idi = 0 ∨ S.idi = 1) ∧ (S.pe = 0 ∨ S.pe = 1) := by
  induction h with
  | base => simp [cssSelectorBuilder]
  | call op v _ hcall ih =>
    obtain ⟨-, -, hel, hid, hpe⟩ := call_ok_spec hcall
    rw [hel, hid, hpe]
    obtain ⟨i1, i2, i3⟩ := ih
    refine ⟨?_, ?_, ?_⟩
    · split
      · exact Or.inr rfl
      · exact i1
    · split
      · exact Or.inr rfl
      · exact i2
    · split
      · exact Or.inr rfl
      · exact i3
  | combine c _ _ _ ihR _ _ => simpa [Selector.combine] using ihR

/-- C8 at `element("a").combine(cssSelectorBuilder, "+", id("b"))`. -/
theorem C8_counters_zero_or_one_witness :
    Reachable ⟨" + #b", 1, 0, 0, [true, false, false, false, false, false]⟩ ∧
    ((Selector.mk " + #b" 1 0 0 [true, false, false, false, false, false]).el = 0 ∨
      (Selector.mk " + #b" 1 0 0 [true, false, false, false, false, false]).el = 1) ∧
    ((Selector.mk " + #b" 1 0 0 [true, false, false, false, false, false]).idi = 0 ∨
      (Selector.mk " + #b" 1 0 0 [true, false, false, false, false, false]).idi = 1) ∧
    ((Selector.mk " + #b" 1 0 0 [true, false, false, false, false, false]).pe = 0 ∨
      (Selector.mk " + #b" 1 0 0 [true, false, false, false, false, false]).pe = 1) :=
  have hr : Reachable ⟨" + #b", 1, 0, 0, [true, false, false, false, false, false]⟩ :=
    Reachable.combine "+"
      (@Reachable.call cssSelectorBuilder
        ⟨"a", 1, 0, 0, [true, false, false, false, false, false]⟩ .element "a" .base rfl)
      .base
      (@Reachable.call cssSelectorBuilder
        ⟨"#b", 0, 1, 0, [false, true, false, false, false, false]⟩ .id "b" .base rfl)
  ⟨hr, C8_counters_zero_or_one _ hr⟩

theorem chain_repeat_ok (op : Op) (hel : op ≠ .element) (hid : op ≠ .id)
    (hpe : op ≠ .pseudoElement) : ∀ (ws : List String) (S : Selector),
    indexOf S.array true ≤ (op.index : Int) →
    ∃ S1, chain S (ws.map fun x => (op, x)) = .ok S1 := by
  intro ws
  induction ws with
  | nil => intro S _; exact ⟨S, rfl⟩
  | cons w ws ih =>
    intro S hS
    obtain ⟨S1, h1⟩ := call_ok_of w hS (fun h => absurd h hel) (fun h => absurd h hid)
      (fun h => absurd h hpe)
    obtain ⟨S2, h2⟩ := ih S1 (by
      rw [(call_ok_spec h1).2.1]; exact indexOf_setIndex_le _ _)
    exact ⟨S2, by rw [List.map_cons, chain_cons_ok _ h1]; exact h2⟩

theorem call_again_ok {T S : Selector} {op : Op} {v : String} (h : call T op v = .ok S)
    (hel : op ≠ .element) (hid : op ≠ .id) (hpe : op ≠ .pseudoElement) (ws : List String) :
    ∃ S1, chain S (ws.map fun x => (op, x)) = .ok S1 ∧
      S1.cssSelector = S.cssSelector ++ fragments (ws.map fun x => (op, x)) := by
  obtain ⟨S1, h1⟩ := chain_repeat_ok op hel hid hpe ws S (by
    rw [(call_ok_spec h).2.1]; exact indexOf_setIndex_le _ _)
  exact ⟨S1, h1, chain_text _ _ _ h1⟩

/-- C9: on a selector `S` returned by a successful `class` (respectively `attr`,
`pseudoClass`) call, on whatever receiver, the same method called again with
any value `w` returns a selector whose text is the text of `S` followed by `.w`
(respectively `[w]`, `:w`); and so does any number of further calls in a row. -/
theorem C9_repeat_class_attr_pseudoClass (T S : Selector) (v w : String) :
    (T.class_ v = .ok S →
      (∃ S1, S.class_ w = .ok S1 ∧ S1.cssSelector = S.cssSelector ++ ("." ++ w)) ∧
      ∀ ws : List String, ∃ S1, chain S (ws.map fun x => (Op.class_, x)) = .ok S1 ∧
        S1.cssSelector = S.cssSelector ++ fragments (ws.map fun x => (Op.class_, x))) ∧
    (T.attr v = .ok S →
      (∃ S1, S.attr w = .ok S1 ∧ S1.cssSelector = S.cssSelector ++ ("[" ++ w ++ "]")) ∧
      ∀ ws : List String, ∃ S1, chain S (ws.map fun x => (Op.attr, x)) = .ok S1 ∧
        S1.cssSelector = S.cssSelector ++ fragments (ws.map fun x => (Op.attr, x))) ∧
    (T.pseudoClass v = .ok S →
      (∃ S1, S.pseudoClass w = .ok S1 ∧ S1.cssSelector = S.cssSelector ++ (":" ++ w)) ∧
      ∀ ws : List String, ∃ S1, chain S (ws.map fun x => (Op.pseudoClass, x)) = .ok S1 ∧
        S1.cssSelector = S.cssSelector ++ fragments (ws.map fun x => (Op.pseudoClass, x))) := by
  refine ⟨fun h => ?_, fun h => ?_, fun h => ?_⟩
  · have hc : call T .class_ v = .ok S := h
    refine ⟨?_, call_again_ok hc (by decide) (by decide) (by decide)⟩
    obtain ⟨S1, h1, h2⟩ := call_again_ok hc (by decide) (by decide) (by decide) [w]
    obtain ⟨S2, h3, h4⟩ := chain_cons_inv h1
    have h5 : S2 = S1 := by simp only [chain] at h4; injection h4
    exact ⟨S2, h3, by rw [h5]; simpa [fragments, Op.fragment] using h2⟩
  · have hc : call T .attr v = .ok S := h
    refine ⟨?_, call_again_ok hc (by decide) (by decide) (by decide)⟩
    obtain ⟨S1, h1, h2⟩ := call_again_ok hc (by decide) (by decide) (by decide) [w]
    obtain ⟨S2, h3, h4⟩ := chain_cons_inv h1
    have h5 : S2 = S1 := by simp only [chain] at h4; injection h4
    exact ⟨S2, h3, by rw [h5]; simpa [fragments, Op.fragment] using h2⟩
  · have hc : call T .pseudoClass v = .ok S := h
    refine ⟨?_, call_again_ok hc (by decide) (by decide) (by decide)⟩
    obtain ⟨S1, h1, h2⟩ := call_again_ok hc (by decide) (by decide) (by decide) [w]
    obtain ⟨S2, h3, h4⟩ := chain_cons_inv h1
    have h5 : S2 = S1 := by simp only [chain] at h4; injection h4
    exact ⟨S2, h3, by rw [h5]; simpa [fragments, Op.fragment] using h2⟩

/-- C9 at `class("b").class("c")`, whose text is `.b.c`, and at repeated `attr`
and `pseudoClass` calls. -/
theorem C9_repeat_class_attr_pseudoClass_witness :
    (∃ S1, Selector.class_ ⟨".b", 0, 0, 0, [false, false, true, false, false, false]⟩ "c" =
        .ok S1 ∧ S1.stringify = ".b.c") ∧
    (∃ S1, Selector.attr ⟨"[b]", 0, 0, 0, [false, false, false, true, false, false]⟩ "c" =
        .ok S1 ∧ S1.stringify = "[b][c]") ∧
    (∃ S1, Selector.pseudoClass ⟨":b", 0, 0, 0, [false, false, false, false, true, false]⟩
        "c" = .ok S1 ∧ S1.stringify = ":b:c") := by
  obtain ⟨S1, h1, h2⟩ := ((C9_repeat_class_attr_pseudoClass cssSelectorBuilder
    ⟨".b", 0, 0, 0, [false, false, true, false, false, false]⟩ "b" "c").1 rfl).1
  obtain ⟨S2, h3, h4⟩ := ((C9_repeat_class_attr_pseudoClass cssSelectorBuilder
    ⟨"[b]", 0, 0, 0, [false, false, false, true, false, false]⟩ "b" "c").2.1 rfl).1
  obtain ⟨S3, h5, h6⟩ := ((C9_repeat_class_attr_pseudoClass cssSelectorBuilder
    ⟨":b", 0, 0, 0, [false, false, false, false, true, false]⟩ "b" "c").2.2 rfl).1
  exact ⟨⟨S1, h1, h2.trans rfl⟩, ⟨S2, h3, h4.trans rfl⟩, ⟨S3, h5, h6.trans rfl⟩⟩

/-- C10: the value of a fragment call is not inspected: on every selector and
for every fragment method, the call with `v` throws exactly when the call with
`w` throws, with the same error, and when they return, the returned selectors
have the same counters and flags; so the empty string is accepted wherever any
value is, `id("")` on the empty builder giving `#` and `element("")` the empty
text. -/
theorem C10_value_not_inspected (S : Selector) (op : Op) (v w : String) :
    (∀ e, call S op v = .error e ↔ call S op w = .error e) ∧
    (∀ S1, call S op v = .ok S1 → ∃ S2, call S op w = .ok S2 ∧
      S2.el = S1.el ∧ S2.idi = S1.idi ∧ S2.pe = S1.pe ∧ S2.array = S1.array) ∧
    ((∃ S1, call S op v = .ok S1) → ∃ S2, call S op "" = .ok S2) ∧
    (cssSelectorBuilder.id "").map Selector.stringify = .ok "#" ∧
    (cssSelectorBuilder.element "").map Selector.stringify = .ok "" := by
  refine ⟨?_, ?_, ?_, rfl, rfl⟩
  · intro e
    cases op <;>
      simp only [call, Selector.element, Selector.id, Selector.class_, Selector.attr,
        Selector.pseudoClass, Selector.pseudoElement] <;>
      split_ifs <;> simp
  · intro S1
    cases op <;>
      simp only [call, Selector.element, Selector.id, Selector.class_, Selector.attr,
        Selector.pseudoClass, Selector.pseudoElement] <;>
      split_ifs <;> simp <;> rintro rfl <;> simp
  · cases op <;>
      simp only [call, Selector.element, Selector.id, Selector.class_, Selector.attr,
        Selector.pseudoClass, Selector.pseudoElement] <;>
      split_ifs <;> simp

/-! ### Store level -/

theorem getD_append_length {α : Type} (l : List α) (x d : α) :
    (l ++ [x]).getD l.length d = x := by
  simp [List.getD]

theorem set_append_length {α : Type} (l : List α) (x y : α) :
    (l ++ [x]).set l.length y = l ++ [y] := by
  induction l with
  | nil => rfl
  | cons a l ih => simp [ih]

theorem getD_append_lt {α : Type} (l t : List α) (r : Nat) (d : α) (hr : r < l.length) :
    (l ++ t).getD r d = l.getD r d := by
  simp [List.getD, List.getElem?_append_left hr]

/-- The statements of `element` amount to the value-level method followed by
one allocation. -/
theorem Heap.element_eq (h : Heap) (this : Nat) (v : String) (ht : this < h.objs.length) :
    h.element this v = h.store ((h.view this).element v) := by
  simp only [Heap.element, Selector.element, Heap.view, Heap.store]
  split_ifs <;> try rfl
  simp [Heap.spread, Heap.update, Heap.slice, Heap.assignIndex, Heap.obj, Heap.arr,
    getD_append_length, set_append_length, getD_append_lt, ht,
    List.getElem?_append_left ht]

/-- The statements of `id` amount to the value-level method followed by one
allocation. -/
theorem Heap.id_eq (h : Heap) (this : Nat) (v : String) (ht : this < h.objs.length) :
    h.id this v = h.store ((h.view this).id v) := by
  simp only [Heap.id, Selector.id, Heap.view, Heap.store]
  split_ifs <;> try rfl
  simp [Heap.spread, Heap.update, Heap.slice, Heap.assignIndex, Heap.obj, Heap.arr,
    getD_append_length, set_append_length, getD_append_lt, ht,
    List.getElem?_append_left ht]

/-- The statements of `class` amount to the value-level method followed by one
allocation. -/
theorem Heap.class__eq (h : Heap) (this : Nat) (v : String) (ht : this < h.objs.length) :
    h.class_ this v = h.store ((h.view this).class_ v) := by
  simp only [Heap.class_, Selector.class_, Heap.view, Heap.store]
  split_ifs <;> try rfl
  simp [Heap.spread, Heap.update, Heap.slice, Heap.assignIndex, Heap.obj, Heap.arr,
    getD_append_length, set_append_length, getD_append_lt, ht,
    List.getElem?_append_left ht]

/-- The statements of `attr` amount to the value-level method followed by one
allocation. -/
theorem Heap.attr_eq (h : Heap) (this : Nat) (v : String) (ht : this < h.objs.length) :
    h.attr this v = h.store ((h.view this).attr v) := by
  simp only [Heap.attr, Selector.attr, Heap.view, Heap.store]
  split_ifs <;> try rfl
  simp [Heap.spread, Heap.update, Heap.slice, Heap.assignIndex, Heap.obj, Heap.arr,
    getD_append_length, set_append_length, getD_append_lt, ht,
    List.getElem?_append_left ht]

/-- The statements of `pseudoClass` amount to the value-level method followed by one
allocation. -/
theorem Heap.pseudoClass_eq (h : Heap) (this : Nat) (v : String) (ht : this < h.objs.length) :
    h.pseudoClass this v = h.store ((h.view this).pseudoClass v) := by
  simp only [Heap.pseudoClass, Selector.pseudoClass, Heap.view, Heap.store]
  split_ifs <;> try rfl
  simp [Heap.spread, Heap.update, Heap.slice, Heap.assignIndex, Heap.obj, Heap.arr,
    getD_append_length, set_append_length, getD_append_lt, ht,
    List.getElem?_append_left ht]

/-- The statements of `pseudoElement` amount to the value-level method followed by one
allocation. -/
theorem Heap.pseudoElement_eq (h : Heap) (this : Nat) (v : String) (ht : this < h.objs.length) :
    h.pseudoElement this v = h.store ((h.view this).pseudoElement v) := by
  simp only [Heap.pseudoElement, Selector.pseudoElement, Heap.view, Heap.store]
  split_ifs <;> try rfl
  simp [Heap.spread, Heap.update, Heap.slice, Heap.assignIndex, Heap.obj, Heap.arr,
    getD_append_length, set_append_length, getD_append_lt, ht,
    List.getElem?_append_left ht]

/-- The statements of `combine` amount to the value-level method followed by
one allocation. -/
theorem Heap.combine_eq (h : Heap) (this a b : Nat) (c : String)
    (ht : this < h.objs.length) (ha : a < h.objs.length) (hb : b < h.objs.length) :
    h.combine this a c b =
      ((h.store (.ok ((h.view this).combine (h.view a) c (h.view b)))).1, h.objs.length) := by
  simp [Heap.combine, Selector.combine, Heap.view, Heap.store, Heap.spread, Heap.update,
    Heap.slice, Heap.obj, Heap.arr, getD_append_length, set_append_length, getD_append_lt,
    ht, ha, hb, List.getElem?_append_left ht, List.getElem?_append_left ha,
    List.getElem?_append_left hb]

theorem Heap.call_eq (h : Heap) (this : Nat) (op : Op) (v : String)
    (ht : this < h.objs.length) :
    h.call this op v = h.store (CssSelector.call (h.view this) op v) := by
  cases op <;> simp only [Heap.call, CssSelector.call]
  · exact h.element_eq this v ht
  · exact h.id_eq this v ht
  · exact h.class__eq this v ht
  · exact h.attr_eq this v ht
  · exact h.pseudoClass_eq this v ht
  · exact h.pseudoElement_eq this v ht

/-- An allocation leaves every object of the store, and its array, as they were. -/
theorem Heap.store_view (h : Heap) (r : Except JsError Selector) (s : Nat) (hs : h.Valid s) :
    (h.store r).1.view s = h.view s ∧ (h.store r).1.Valid s := by
  obtain ⟨h1, h2⟩ := hs
  cases r with
  | error e => exact ⟨rfl, h1, h2⟩
  | ok S =>
    have ho : (h.store (.ok S)).1.obj s = h.obj s := by
      simp [Heap.store, Heap.obj, List.getElem?_append_left h1]
    have ha : (h.store (.ok S)).1.arr (h.obj s).array = h.arr (h.obj s).array := by
      simp [Heap.store, Heap.arr, List.getElem?_append_left h2]
    refine ⟨?_, ?_, ?_⟩
    · simp only [Heap.view, ho, ha]
    · simp only [Heap.store, List.length_append]; omega
    · rw [ho]; simp only [Heap.store, List.length_append]; omega

/-- The object allocated for a returned selector holds that selector. -/
theorem Heap.store_ok (h : Heap) (S : Selector) :
    (h.store (.ok S)).2 = .ok h.objs.length ∧
    (h.store (.ok S)).1.view h.objs.length = S ∧
    (h.store (.ok S)).1.Valid h.objs.length := by
  refine ⟨rfl, ?_, ?_, ?_⟩
  · simp [Heap.store, Heap.view, Heap.obj, Heap.arr]
  · simp [Heap.store]
  · simp [Heap.store, Heap.obj]

theorem Heap.call_ok_inv {h : Heap} {this r : Nat} {op : Op} {v : String}
    (ht : h.Valid this) (hr : (h.call this op v).2 = .ok r) :
    ∃ S, CssSelector.call (h.view this) op v = .ok S ∧
      (h.call this op v).1.view r = S ∧ (h.call this op v).1.Valid r := by
  rw [h.call_eq this op v ht.1] at hr ⊢
  cases hc : CssSelector.call (h.view this) op v with
  | error e => rw [hc] at hr; simp [Heap.store] at hr
  | ok S =>
    rw [hc] at hr
    obtain ⟨h1, h2, h3⟩ := h.store_ok S
    rw [h1] at hr
    injection hr with hr
    subst hr
    exact ⟨S, rfl, h2, h3⟩

/-- C6: no method writes to an object that existed before the call.  In every
store, for a call of `element`, `id`, `class`, `attr`, `pseudoClass`,
`pseudoElement` or `combine` on the object `this`, whether it returns or throws,
every object `s` of the store (the receiver, an operand, the base
`cssSelectorBuilder`, or any other) has afterwards the text, the three counters
and the flags it had before, so `stringify()` on it returns the same string;
and when two fragment calls are made one after the other on the same object
and both return, the text of each result is the text of that object followed by
the fragment of the call. -/
theorem C6_no_operation_mutates (h : Heap) (this s : Nat) (hthis : h.Valid this)
    (hs : h.Valid s) :
    (∀ op v, (h.call this op v).1.view s = h.view s ∧
      (h.call this op v).1.stringify s = h.stringify s) ∧
    (∀ a c b, h.Valid a → h.Valid b →
      (h.combine this a c b).1.view s = h.view s ∧
      (h.combine this a c b).1.stringify s = h.stringify s) ∧
    (∀ op1 v1 op2 v2 r1 r2,
      (h.call this op1 v1).2 = .ok r1 →
      ((h.call this op1 v1).1.call this op2 v2).2 = .ok r2 →
      ((h.call this op1 v1).1.call this op2 v2).1.stringify r1 =
        h.stringify this ++ op1.fragment v1 ∧
      ((h.call this op1 v1).1.call this op2 v2).1.stringify r2 =
        h.stringify this ++ op2.fragment v2 ∧
      ((h.call this op1 v1).1.call this op2 v2).1.stringify this = h.stringify this) := by
  have hstr : ∀ (g : Heap) (r : Nat), g.stringify r = (g.view r).cssSelector :=
    fun _ _ => rfl
  have hframe : ∀ (g : Heap) (t x : Nat) (op : Op) (v : String), g.Valid t → g.Valid x →
      (g.call t op v).1.view x = g.view x ∧ (g.call t op v).1.Valid x := by
    intro g t x op v ht hx
    rw [g.call_eq t op v ht.1]
    exact g.store_view _ x hx
  refine ⟨?_, ?_, ?_⟩
  · intro op v
    have h1 := (hframe h this s op v hthis hs).1
    exact ⟨h1, by rw [hstr, hstr, h1]⟩
  · intro a c b ha hb
    have h1 : (h.combine this a c b).1.view s = h.view s := by
      rw [h.combine_eq this a b c hthis.1 ha.1 hb.1]
      exact (h.store_view _ s hs).1
    exact ⟨h1, by rw [hstr, hstr, h1]⟩
  · intro op1 v1 op2 v2 r1 r2 hr1 hr2
    obtain ⟨S1, hc1, hv1, hval1⟩ := Heap.call_ok_inv hthis hr1
    obtain ⟨ht1, htv1⟩ := hframe h this this op1 v1 hthis hthis
    obtain ⟨S2, hc2, hv2, -⟩ := Heap.call_ok_inv htv1 hr2
    have hk1 := (hframe (h.call this op1 v1).1 this r1 op2 v2 htv1 hval1).1
    have hk2 := (hframe (h.call this op1 v1).1 this this op2 v2 htv1 htv1).1
    rw [ht1] at hc2
    refine ⟨?_, ?_, ?_⟩
    · rw [hstr, hstr, hk1, hv1, (call_ok_spec hc1).1]
    · rw [hstr, hstr, hv2, (call_ok_spec hc2).1]
    · rw [hstr, hstr, hk2, ht1]

/-- C6 in the store holding `cssSelectorBuilder` and the selector returned by
`cssSelectorBuilder.id("a")`, for calls on the latter, observed on the base
object. -/
theorem C6_no_operation_mutates_witness :
    (Heap.initial.view 0 = cssSelectorBuilder ∧
      (Heap.initial.id 0 "a").2 = .ok 1 ∧
      (Heap.initial.id 0 "a").1.view 0 = cssSelectorBuilder ∧
      (Heap.initial.id 0 "a").1.view 1 =
        ⟨"#a", 0, 1, 0, [false, true, false, false, false, false]⟩) ∧
    ((Heap.initial.id 0 "a").1.element 1 "b").2 = .error (.Error orderMessage) ∧
    ((Heap.initial.id 0 "a").1.element 1 "b").1.view 1 = (Heap.initial.id 0 "a").1.view 1 ∧
    ((Heap.initial.id 0 "a").1.class_ 1 "b").2 = .ok 2 ∧
    ((Heap.initial.id 0 "a").1.class_ 1 "b").1.view 1 = (Heap.initial.id 0 "a").1.view 1 ∧
    ((Heap.initial.id 0 "a").1.class_ 1 "b").1.view 0 = (Heap.initial.id 0 "a").1.view 0 ∧
    ((Heap.initial.id 0 "a").1.combine 1 0 "+" 1).1.view 1 =
      (Heap.initial.id 0 "a").1.view 1 :=
  have hv0 : (Heap.initial.id 0 "a").1.Valid 0 := ⟨by decide, by decide⟩
  have hv1 : (Heap.initial.id 0 "a").1.Valid 1 := ⟨by decide, by decide⟩
  ⟨⟨rfl, rfl, rfl, rfl⟩, rfl,
    ((C6_no_operation_mutates (Heap.initial.id 0 "a").1 1 1 hv1 hv1).1 .element "b").1,
    rfl,
    ((C6_no_operation_mutates (Heap.initial.id 0 "a").1 1 1 hv1 hv1).1 .class_ "b").1,
    ((C6_no_operation_mutates (Heap.initial.id 0 "a").1 1 0 hv1 hv0).1 .class_ "b").1,
    ((C6_no_operation_mutates (Heap.initial.id 0 "a").1 1 1 hv1 hv1).2.1 0 "+" 1 hv0 hv1).1⟩

/-! ### The lowest set flag -/

theorem indexOfFrom_eq_of_lowest : ∀ (a : List Bool) (i k : Nat),
    a[k]? = some true → (∀ j, j < k → a[j]? ≠ some true) →
    indexOfFrom true a i = (i : Int) + k := by
  intro a
  induction a with
  | nil => intro i k h _; simp at h
  | cons b bs ih =>
    intro i k h hmin
    cases k with
    | zero =>
      simp only [List.getElem?_cons_zero, Option.some.injEq] at h
      simp [indexOfFrom, h]
    | succ k =>
      have hb : ¬ b = true := by
        intro hb
        exact hmin 0 (Nat.succ_pos k) (by simp [hb])
      have h1 := ih (i + 1) k (by simpa using h) (by
        intro j hj
        have h2 := hmin (j + 1) (by omega)
        simpa using h2)
      simp only [indexOfFrom, if_neg hb, h1]
      push_cast
      omega

theorem indexOfFrom_eq_neg_one : ∀ (a : List Bool) (i : Nat),
    (∀ k : Nat, a[k]? ≠ some true) → indexOfFrom true a i = -1 := by
  intro a
  induction a with
  | nil => intro i _; rfl
  | cons b bs ih =>
    intro i h
    have hb : ¬ b = true := by
      intro hb
      exact h 0 (by simp [hb])
    simp only [indexOfFrom, if_neg hb]
    exact ih (i + 1) (by
      intro k
      have h2 := h (k + 1)
      simpa using h2)

/-- The test `a.indexOf(true) > c` holds exactly when some element of `a` is
`true` and the lowest index of one is above `c`. -/
theorem indexOf_gt_iff (a : List Bool) (c : Nat) :
    indexOf a true > (c : Int) ↔
      ∃ k : Nat, a[k]? = some true ∧ (∀ j, j < k → a[j]? ≠ some true) ∧ c < k := by
  by_cases h : ∃ k : Nat, a[k]? = some true
  · have hk := Nat.find_spec h
    have hmin : ∀ j, j < Nat.find h → a[j]? ≠ some true := fun j hj => Nat.find_min h hj
    have e := indexOfFrom_eq_of_lowest a 0 (Nat.find h) hk hmin
    constructor
    · intro hgt
      refine ⟨Nat.find h, hk, hmin, ?_⟩
      simp only [indexOf, e] at hgt
      push_cast at hgt
      omega
    · rintro ⟨k, hk1, hmin1, hc⟩
      have e1 := indexOfFrom_eq_of_lowest a 0 k hk1 hmin1
      simp only [indexOf, e1]
      push_cast
      omega
  · have h1 : ∀ k : Nat, a[k]? ≠ some true := fun k hk => h ⟨k, hk⟩
    have e := indexOfFrom_eq_neg_one a 0 h1
    constructor
    · intro hgt
      simp only [indexOf, e] at hgt
      omega
    · rintro ⟨k, hk1, -, -⟩
      exact absurd hk1 (h1 k)

theorem indexOf_le_of_set {a : List Bool} {k : Nat} (h : a[k]? = some true) :
    indexOf a true ≤ (k : Int) := by
  by_contra hgt
  obtain ⟨i, -, hmin, hi⟩ := (indexOf_gt_iff a k).1 (by omega)
  exact hmin k hi h

theorem setIndex_getElem?_true : ∀ (i : Nat) (a : List Bool) (j : Nat),
    (setIndex a i true)[j]? = some true ↔ (j = i ∨ a[j]? = some true) := by
  intro i
  induction i with
  | zero =>
    intro a j
    cases a <;> cases j <;> simp [setIndex]
  | succ i ih =>
    intro a j
    cases a with
    | nil =>
      cases j with
      | zero => simp [setIndex]
      | succ j => simpa [setIndex] using ih [] j
    | cons b bs =>
      cases j with
      | zero => simp [setIndex]
      | succ j => simpa [setIndex] using ih bs j

/-- When a fragment call throws the ordering error. -/
theorem call_order_error_iff (S : Selector) (op : Op) (v : String) :
    call S op v = .error (.Error orderMessage) ↔
      (op ≠ .pseudoElement ∧ (op = .element → S.el ≠ 1) ∧ (op = .id → S.idi ≠ 1) ∧
        indexOf S.array true > (op.index : Int)) := by
  have hne : ¬ duplicateMessage = orderMessage := by decide
  cases op <;>
    simp only [call, Selector.element, Selector.id, Selector.class_, Selector.attr,
      Selector.pseudoClass, Selector.pseudoElement, Op.index] <;>
    split_ifs <;> simp_all

/-! ### Flags along a chain -/

/-- A flag that is set, or whose category is called, is set at the end of a
chain that does not throw. -/
theorem chain_flags : ∀ (calls : List (Op × String)) (S S1 : Selector),
    chain S calls = .ok S1 → ∀ k : Nat,
    (S.array[k]? = some true ∨ ∃ op ∈ calls.map Prod.fst, op.index = k) →
    S1.array[k]? = some true := by
  intro calls
  induction calls with
  | nil =>
    intro S S1 h k hk
    simp only [chain] at h
    cases h
    simpa using hk
  | cons p rest ih =>
    intro S S1 h k hk
    obtain ⟨op, v⟩ := p
    obtain ⟨S2, h1, h2⟩ := chain_cons_inv h
    have harr := (call_ok_spec h1).2.1
    apply ih S2 S1 h2 k
    rcases hk with hk | ⟨op1, hop1, hidx⟩
    · left
      rw [harr, setIndex_getElem?_true]
      exact Or.inr hk
    · simp only [List.map_cons, List.mem_cons] at hop1
      rcases hop1 with rfl | hop1
      · left
        rw [harr, setIndex_getElem?_true]
        exact Or.inl hidx.symm
      · exact Or.inr ⟨op1, hop1, hidx⟩

/-- A chain without `element` keeps the element counter and the element flag. -/
theorem chain_without_element : ∀ (calls : List (Op × String)) (S S1 : Selector),
    chain S calls = .ok S1 → Op.element ∉ calls.map Prod.fst →
    S1.el = S.el ∧ (S1.array[0]? = some true ↔ S.array[0]? = some true) := by
  intro calls
  induction calls with
  | nil =>
    intro S S1 h _
    simp only [chain] at h
    cases h
    exact ⟨rfl, Iff.rfl⟩
  | cons p rest ih =>
    intro S S1 h hno
    obtain ⟨op, v⟩ := p
    obtain ⟨S2, h1, h2⟩ := chain_cons_inv h
    obtain ⟨-, harr, hel, -, -⟩ := call_ok_spec h1
    simp only [List.map_cons, List.mem_cons, not_or] at hno
    obtain ⟨i1, i2⟩ := ih S2 S1 h2 hno.2
    have hop : op ≠ .element := fun e => hno.1 e.symm
    refine ⟨?_, ?_⟩
    · rw [i1, hel, if_neg hop]
    · rw [i2, harr, setIndex_getElem?_true]
      have hidx : ¬ 0 = op.index := by cases op <;> simp [Op.index] at hop ⊢
      simp [hidx]

/-- C11: on a selector reached from the empty `cssSelectorBuilder` by one or
more successful fragment calls, `element(v)` throws for every `v`: the
duplicate error when `element` is among the calls, the ordering error when it
is not. -/
theorem C11_element_only_first (calls : List (Op × String)) (S : Selector)
    (hne : calls ≠ []) (h : chain cssSelectorBuilder calls = .ok S) (v : String) :
    (Op.element ∈ calls.map Prod.fst → S.element v = .error (.Error duplicateMessage)) ∧
    (Op.element ∉ calls.map Prod.fst → S.element v = .error (.Error orderMessage)) ∧
    ∃ e, S.element v = .error e := by
  have hdup : Op.element ∈ calls.map Prod.fst →
      S.element v = .error (.Error duplicateMessage) := by
    intro hh
    simp [Selector.element, (chain_counters calls _ _ h).1 (Or.inr hh)]
  have hord : Op.element ∉ calls.map Prod.fst →
      S.element v = .error (.Error orderMessage) := by
    intro hh
    obtain ⟨hel, hflag⟩ := chain_without_element calls _ _ h hh
    have h0 : S.array[0]? ≠ some true := by
      intro hc
      have hb := hflag.1 hc
      simp [cssSelectorBuilder] at hb
    obtain ⟨p, rest, rfl⟩ := List.exists_cons_of_ne_nil hne
    have hset : S.array[p.1.index]? = some true :=
      chain_flags _ _ _ h _ (Or.inr ⟨p.1, by simp, rfl⟩)
    have hex : ∃ k : Nat, S.array[k]? = some true := ⟨_, hset⟩
    have hpos : 0 < Nat.find hex := by
      rcases Nat.eq_zero_or_pos (Nat.find hex) with h1 | h1
      · exact absurd (h1 ▸ Nat.find_spec hex) h0
      · exact h1
    show call S .element v = _
    rw [call_order_error_iff]
    refine ⟨by decide, fun _ => ?_, fun hc => absurd hc (by decide), ?_⟩
    · rw [hel]; simp [cssSelectorBuilder]
    · rw [indexOf_gt_iff]
      exact ⟨Nat.find hex, Nat.find_spec hex, fun j hj => Nat.find_min hex hj, hpos⟩
  refine ⟨hdup, hord, ?_⟩
  by_cases hh : Op.element ∈ calls.map Prod.fst
  · exact ⟨_, hdup hh⟩
  · exact ⟨_, hord hh⟩

/-- C11 at `id("main").element("a")`, which throws the ordering error, and at
`element("div").element("span")`, which throws the duplicate error. -/
theorem C11_element_only_first_witness :
    (∃ S, chain cssSelectorBuilder [(.id, "main")] = .ok S ∧
      S.element "a" = .error (.Error orderMessage)) ∧
    (∃ S, chain cssSelectorBuilder [(.element, "div")] = .ok S ∧
      S.element "span" = .error (.Error duplicateMessage)) :=
  ⟨⟨⟨"#main", 0, 1, 0, [false, true, false, false, false, false]⟩, rfl,
      (C11_element_only_first [(.id, "main")] _ (by simp) rfl "a").2.1 (by decide)⟩,
    ⟨⟨"div", 1, 0, 0, [true, false, false, false, false, false]⟩, rfl,
      (C11_element_only_first [(.element, "div")] _ (by simp) rfl "span").1 (by decide)⟩⟩

/-- C14: the acceptance rule of the ordering check.  On every selector, a call
of `element`, `id`, `class`, `attr` or `pseudoClass` (category index `c` from 0
to 4) that is not rejected as a duplicate throws the ordering error exactly
when some flag is set and the lowest index of a set flag is above `c`;
`pseudoElement` never throws the ordering error; and once a call of category
`k` was made in a chain, no later call of a category at or above `k` throws the
ordering error. -/
theorem C14_ordering_check_rule (S : Selector) (op : Op) (v : String) :
    (op ≠ .pseudoElement → (op = .element → S.el ≠ 1) → (op = .id → S.idi ≠ 1) →
      (call S op v = .error (.Error orderMessage) ↔
        ∃ k : Nat, S.array[k]? = some true ∧ (∀ j, j < k → S.array[j]? ≠ some true) ∧
          op.index < k)) ∧
    S.pseudoElement v ≠ .error (.Error orderMessage) ∧
    (∀ (calls : List (Op × String)) (S0 : Selector) (opk : Op),
      chain S0 calls = .ok S → opk ∈ calls.map Prod.fst → opk.index ≤ op.index →
      call S op v ≠ .error (.Error orderMessage)) := by
  refine ⟨?_, ?_, ?_⟩
  · intro hpe hel hid
    rw [call_order_error_iff, indexOf_gt_iff]
    constructor
    · exact fun hh => hh.2.2.2
    · exact fun hh => ⟨hpe, hel, hid, hh⟩
  · intro hc
    have hc1 : call S .pseudoElement v = .error (.Error orderMessage) := hc
    rw [call_order_error_iff] at hc1
    exact hc1.1 rfl
  · intro calls S0 opk hchain hmem hle hc
    rw [call_order_error_iff] at hc
    have hset : S.array[opk.index]? = some true :=
      chain_flags calls S0 S hchain _ (Or.inr ⟨opk, hmem, rfl⟩)
    have h1 := indexOf_le_of_set hset
    have h2 := hc.2.2.2
    omega

/-- C14 at the selector returned by `class("b")`, whose lowest set flag is at
index 2: `id` throws the ordering error, `class` does not, and after the chain
`element("a").class("b")` neither `class` nor `id` throws it. -/
theorem C14_ordering_check_rule_witness :
    (Selector.id ⟨".b", 0, 0, 0, [false, false, true, false, false, false]⟩ "x" =
        .error (.Error orderMessage) ↔
      ∃ k : Nat, [false, false, true, false, false, false][k]? = some true ∧
        (∀ j, j < k → [false, false, true, false, false, false][j]? ≠ some true) ∧ 1 < k) ∧
    call ⟨"a.b", 1, 0, 0, [true, false, true, false, false, false]⟩ .class_ "c" ≠
      .error (.Error orderMessage) ∧
    call ⟨"a.b", 1, 0, 0, [true, false, true, false, false, false]⟩ .id "x" ≠
      .error (.Error orderMessage) :=
  ⟨(C14_ordering_check_rule ⟨".b", 0, 0, 0, [false, false, true, false, false, false]⟩
      .id "x").1 (by decide) (fun hc => absurd hc (by decide)) (fun _ => by decide),
    (C14_ordering_check_rule ⟨"a.b", 1, 0, 0, [true, false, true, false, false, false]⟩
      .class_ "c").2.2 [(.element, "a"), (.class_, "b")] cssSelectorBuilder .class_ rfl
      (by decide) (by decide),
    (C14_ordering_check_rule ⟨"a.b", 1, 0, 0, [true, false, true, false, false, false]⟩
      .id "x").2.2 [(.element, "a"), (.class_, "b")] cssSelectorBuilder .element rfl
      (by decide) (by decide)⟩

/-- C15: in every selector reachable from the empty `cssSelectorBuilder` by
successful fragment calls and `combine` calls, `el` is 1 exactly when flag 0 is
set, `idi` is 1 exactly when flag 1 is set, and `pe` is 1 exactly when flag 5
is set. -/
theorem C15_counters_agree_with_flags (S : Selector) (h : Reachable S) :
    (S.el = 1 ↔ S.array[0]? = some true) ∧
    (S.idi = 1 ↔ S.array[1]? = some true) ∧
    (S.pe = 1 ↔ S.array[5]? = some true) := by
  induction h with
  | base => simp [cssSelectorBuilder]
  | call op v _ hcall ih =>
    obtain ⟨-, harr, hel, hid, hpe⟩ := call_ok_spec hcall
    obtain ⟨i1, i2, i3⟩ := ih
    rw [harr, hel, hid, hpe]
    simp only [setIndex_getElem?_true]
    cases op <;> simp [Op.index, i1, i2, i3]
  | combine c _ _ _ ihR _ _ => simpa [Selector.combine] using ihR

/-- C15 at the selector `element("a").combine(id("b"), ">", cssSelectorBuilder)`
extended by `pseudoElement("c")`. -/
theorem C15_counters_agree_with_flags_witness :
    Reachable ⟨"#b > ::c", 1, 0, 1, [true, false, false, false, false, true]⟩ ∧
    ((Selector.mk "#b > ::c" 1 0 1 [true, false, false, false, false, true]).el = 1 ↔
      [true, false, false, false, false, true][0]? = some true) ∧
    ((Selector.mk "#b > ::c" 1 0 1 [true, false, false, false, false, true]).idi = 1 ↔
      [true, false, false, false, false, true][1]? = some true) ∧
    ((Selector.mk "#b > ::c" 1 0 1 [true, false, false, false, false, true]).pe = 1 ↔
      [true, false, false, false, false, true][5]? = some true) :=
  have hr : Reachable ⟨"#b > ::c", 1, 0, 1, [true, false, false, false, false, true]⟩ :=
    @Reachable.call ⟨"#b > ", 1, 0, 0, [true, false, false, false, false, false]⟩
      ⟨"#b > ::c", 1, 0, 1, [true, false, false, false, false, true]⟩ .pseudoElement "c"
      (Reachable.combine ">"
        (@Reachable.call cssSelectorBuilder
          ⟨"a", 1, 0, 0, [true, false, false, false, false, false]⟩ .element "a" .base rfl)
        (@Reachable.call cssSelectorBuilder
          ⟨"#b", 0, 1, 0, [false, true, false, false, false, false]⟩ .id "b" .base rfl)
        .base)
      rfl
  ⟨hr, C15_counters_agree_with_flags _ hr⟩

/-- C16: `combine` uses its operands only for their text.  For every receiver
`R`, the counters and the flags of `R.combine(A, c, B)` are those of `R`,
whatever `A`, `B` and `c` are; when `R` is the empty `cssSelectorBuilder`, every
fragment call on the combined selector returns a selector whose text is the
combined text followed by the fragment, so that
`combine(element("a"), "+", element("b")).element("x")` has the text `a + bx`. -/
theorem C16_combine_keeps_receiver_state :
    (∀ (R A B : Selector) (c : String),
      (R.combine A c B).el = R.el ∧ (R.combine A c B).idi = R.idi ∧
      (R.combine A c B).pe = R.pe ∧ (R.combine A c B).array = R.array) ∧
    (∀ (R A B A1 B1 : Selector) (c c1 : String),
      (R.combine A c B).el = (R.combine A1 c1 B1).el ∧
      (R.combine A c B).idi = (R.combine A1 c1 B1).idi ∧
      (R.combine A c B).pe = (R.combine A1 c1 B1).pe ∧
      (R.combine A c B).array = (R.combine A1 c1 B1).array) ∧
    (∀ (A B : Selector) (c : String) (op : Op) (v : String),
      ∃ S1, call (cssSelectorBuilder.combine A c B) op v = .ok S1 ∧
        S1.stringify = (cssSelectorBuilder.combine A c B).stringify ++ op.fragment v) ∧
    (∃ a b S1,
      cssSelectorBuilder.element "a" = .ok a ∧ cssSelectorBuilder.element "b" = .ok b ∧
      (cssSelectorBuilder.combine a "+" b).element "x" = .ok S1 ∧
      S1.stringify = "a + bx") := by
  refine ⟨fun _ _ _ _ => ⟨rfl, rfl, rfl, rfl⟩, fun _ _ _ _ _ _ _ => ⟨rfl, rfl, rfl, rfl⟩,
    ?_, ?_⟩
  · intro A B c op v
    have hidx : indexOf (cssSelectorBuilder.combine A c B).array true ≤ (op.index : Int) := by
      have e : indexOf (cssSelectorBuilder.combine A c B).array true = -1 := rfl
      rw [e]
      omega
    obtain ⟨S1, h1⟩ := call_ok_of v hidx
      (fun _ => by simp [Selector.combine, cssSelectorBuilder])
      (fun _ => by simp [Selector.combine, cssSelectorBuilder])
      (fun _ => by simp [Selector.combine, cssSelectorBuilder])
    exact ⟨S1, h1, (call_ok_spec h1).1⟩
  · exact ⟨⟨"a", 1, 0, 0, [true, false, false, false, false, false]⟩,
      ⟨"b", 1, 0, 0, [true, false, false, false, false, false]⟩,
      ⟨"a + bx", 1, 0, 0, [true, false, false, false, false, false]⟩, rfl, rfl, rfl, rfl⟩

end CssSelector

namespace ObjectsTasks

/-! ### Rectangle and fromJSON -/

theorem excessBits_pos (fuel m : Nat) (h : 0 < fuel) :
    excessBits fuel m = if m < 2 ^ 53 then 0 else excessBits (fuel - 1) (m / 2) + 1 := by
  cases fuel with
  | zero => omega
  | succ k => rfl

theorem excessBits_of_lt (fuel m : Nat) (h : m < 2 ^ 53) : excessBits fuel m = 0 := by
  cases fuel with
  | zero => rfl
  | succ k => simp only [excessBits, if_pos h]

/-- A magnitude up to `2^53` is not changed by the rounding. -/
theorem roundNat_of_le (m : Nat) (h : m ≤ 2 ^ 53) : roundNat m = m := by
  rcases Nat.lt_or_eq_of_le h with h1 | h1
  · simp [roundNat, excessBits_of_lt m m h1, Nat.mod_one]
  · have e : excessBits m m = 1 := by
      rw [excessBits_pos m m (by omega), if_neg (by omega),
        excessBits_of_lt _ _ (by omega)]
    subst h1
    simp only [roundNat, e]
    norm_num

/-- An integer of magnitude up to `2^53` is a double. -/
theorem roundToDouble_of_le (n : Int) (h : n.natAbs ≤ 2 ^ 53) : roundToDouble n = .int n := by
  have h1 : roundNat n.natAbs = n.natAbs := roundNat_of_le _ h
  have h3 : (2 : Nat) ^ 53 < 2 ^ 1024 := by
    apply Nat.pow_lt_pow_of_lt <;> omega
  have h2 : n.natAbs < 2 ^ 1024 := lt_of_le_of_lt h h3
  simp only [roundToDouble, h1, if_pos h2, Int.sign_mul_natAbs]

theorem roundNat_example : roundNat 9007199515875289 = 9007199515875288 := by
  have e : excessBits 9007199515875289 9007199515875289 = 1 := by
    rw [excessBits_pos _ _ (by norm_num), if_neg (by norm_num),
      excessBits_of_lt _ _ (by norm_num)]
  simp only [roundNat, e]
  norm_num

/-- C12 fails above `2^53`: 94906267 is an integer and a JavaScript number, the
exact square is the odd integer 9007199515875289, which is halfway between two
doubles, and `getArea()` of the rectangle of that width and height returns
9007199515875288. -/
theorem C12_area_of_large_square_is_rounded :
    (Rectangle 94906267 94906267).width = 94906267 ∧
    (Rectangle 94906267 94906267).height = 94906267 ∧
    (94906267 : Int) * 94906267 = 9007199515875289 ∧
    (Rectangle 94906267 94906267).getArea = .int 9007199515875288 ∧
    (Rectangle 94906267 94906267).getArea ≠ .int (94906267 * 94906267) := by
  have h1 : (Rectangle 94906267 94906267).getArea = .int 9007199515875288 := by
    have e : ((94906267 : Int) * 94906267).natAbs = 9007199515875289 := by norm_num
    have e2 : ((94906267 : Int) * 94906267).sign = 1 :=
      Int.sign_eq_one_of_pos (by norm_num)
    simp only [RectangleObject.getArea, Rectangle, jsMul, roundToDouble, e, e2,
      roundNat_example]
    norm_num
  refine ⟨rfl, rfl, by norm_num, h1, ?_⟩
  rw [h1]
  intro hc
  injection hc with hc
  norm_num at hc

/-- C12, amended: for all integers `width` and `height` whose product has a
magnitude of at most `2^53`, the object built by `Rectangle(width, height)` has
`width` in its `width` property and `height` in its `height` property, and
`getArea()` returns the product; beyond that bound it returns the double
nearest to the product.  For 10 and 20 the three are 10, 20 and 200. -/
theorem C12_rectangle_fields_and_area (width height : Int)
    (hb : (width * height).natAbs ≤ 2 ^ 53) :
    (Rectangle width height).width = width ∧
    (Rectangle width height).height = height ∧
    (Rectangle width height).getArea = .int (width * height) ∧
    (∀ w h : Int, (Rectangle w h).getArea = roundToDouble (w * h)) := by
  have harea : ∀ w h : Int, (Rectangle w h).getArea = roundToDouble (w * h) := by
    intro w h
    simp only [RectangleObject.getArea, jsMul, Rectangle]
  refine ⟨rfl, rfl, ?_, harea⟩
  rw [harea]
  exact roundToDouble_of_le (width * height) hb

/-- C12, amended, at `Rectangle(10, 20)`: width 10, height 20, area 200. -/
theorem C12_rectangle_fields_and_area_witness :
    (Rectangle 10 20).width = 10 ∧ (Rectangle 10 20).height = 20 ∧
    (Rectangle 10 20).getArea = .int 200 :=
  have h := C12_rectangle_fields_and_area 10 20 (by norm_num)
  ⟨h.1, h.2.1, h.2.2.1⟩

/-- C13, at the failing input `{"height":10,"width":20}`: the parsed object
stores 20 under `width` and 10 under `height`, and `fromJSON` returns the
rectangle of width 10 and height 20, the values being passed to the constructor
in the order of the text.  So a text with `height` first gives the rectangle
with the two values exchanged, and the claim does not hold for both key
orders. -/
theorem C13_fromJSON_follows_key_order :
    List.lookup "width" [("height", (10 : Int)), ("width", 20)] = some 20 ∧
    List.lookup "height" [("height", (10 : Int)), ("width", 20)] = some 10 ∧
    (∀ json, fromJSON (fun _ => [("height", 10), ("width", 20)]) newRectangle json =
      some (Rectangle 10 20)) ∧
    (Rectangle 10 20).width ≠ 20 ∧
    (∀ (parse : String → JsObject) (json : String) (w h : Int),
      parse json = [("height", h), ("width", w)] →
      fromJSON parse newRectangle json = some (Rectangle h w)) ∧
    (∀ (parse : String → JsObject) (json : String) (w h : Int),
      parse json = [("width", w), ("height", h)] →
      fromJSON parse newRectangle json = some (Rectangle w h)) ∧
    ¬ (∀ (parse : String → JsObject) (json : String) (w h : Int),
      (parse json = [("width", w), ("height", h)] ∨
        parse json = [("height", h), ("width", w)]) →
      fromJSON parse newRectangle json = some (Rectangle w h)) := by
  refine ⟨by decide, by decide, fun _ => rfl, by decide, ?_, ?_, ?_⟩
  · intro parse json w h hp
    simp [fromJSON, hp, objectValues, newRectangle]
  · intro parse json w h hp
    simp [fromJSON, hp, objectValues, newRectangle]
  · intro hall
    have h1 := hall (fun _ => [("height", 10), ("width", 20)]) "" 20 10 (Or.inr rfl)
    simp [fromJSON, objectValues, newRectangle, Rectangle] at h1

end ObjectsTasks
